import Mathlib

/-!
Shallow embedding of the moderation-log core of the dogbot repository
(src/dog/ext/modlog.py and src/dog/core/utils/formatting.py), together
with theorems settling the behavioural claims about it.

Strings are modelled as lists of characters where character-level
structure matters; message bodies produced by external renderers
(describe / timeago) enter the model as opaque input fields.
-/

namespace Dogbot

/-! ## Formatting utilities (src/dog/core/utils/formatting.py) -/

/-- Python slice text[:i] for an arbitrary integer bound i: for
non-negative i it keeps the first i characters, for negative i it drops
the last |i| characters (clamping at the empty list). -/
def pySliceTo (l : List Char) (i : Int) : List Char :=
  if 0 ≤ i then l.take i.toNat else l.take (l.length - (-i).toNat)

/-- Embeds formatting.truncate: if len(text) > desired_length, return
text[:desired_length - 3] + three dots, else return text unchanged. -/
def truncate (text : List Char) (desired_length : Int) : List Char :=
  if (text.length : Int) > desired_length then
    pySliceTo text (desired_length - 3) ++ ['.', '.', '.']
  else
    text

/-- The backtick character U+0060, written by code point. -/
def backtickChar : Char := Char.ofNat 96

/-- The zero-width space U+200B inserted around backticks. -/
def zwsp : Char := Char.ofNat 0x200B

/-- The per-character expansion performed by str.replace in
prevent_codeblock_breakout: a backtick becomes ZWSP-backtick-ZWSP, any
other character is kept as is. -/
def breakoutStep (c : Char) : List Char :=
  if c = backtickChar then [zwsp, backtickChar, zwsp] else [c]

/-- Embeds formatting.prevent_codeblock_breakout: replaces every
backtick in the text by ZWSP-backtick-ZWSP. Since the replaced pattern
is a single character, str.replace is character-wise. -/
def prevent_codeblock_breakout (text : List Char) : List Char :=
  text.flatMap breakoutStep

/-! ## The diff engine (modlog.diff) -/

/-- Embeds modlog.diff: additions are the items of after not in before,
removals the items of before not in after, each by list comprehension
(so preserving the order of the comprehended list). -/
def diff {α : Type} [DecidableEq α] (before after : List α) : List α × List α :=
  (after.filter (fun item => decide (item ∉ before)),
   before.filter (fun item => decide (item ∉ after)))

/-! ## Visibility classifier (modlog.is_publicly_visible) -/

/-- A channel permission overwrite; read_messages is tri-state in
discord.py (True, False, or None for neutral). -/
structure PermOverwrite where
  read_messages : Option Bool
  deriving DecidableEq

/-- The principal a permission overwrite applies to; only its name is
inspected by the code. -/
structure OverwriteTarget where
  name : String
  deriving DecidableEq

/-- The name compared against by the lambda in is_publicly_visible. -/
def everyoneName : String := "@everyone"

/-- The discord.utils.find call in is_publicly_visible: first element of
channel.overwrites whose target is named @everyone, if any. -/
def findEveryoneOverwrite (overwrites : List (OverwriteTarget × PermOverwrite)) :
    Option (OverwriteTarget × PermOverwrite) :=
  overwrites.find? (fun t => t.1.name == everyoneName)

/-- Embeds modlog.is_publicly_visible. The await of
bot.config_is_set(guild, log_all_message_events) enters the model as the
boolean logAllMessageEvents; channel.overwrites as an explicit list.
Returns True when the flag is set; otherwise True iff the @everyone
overwrite is absent or its read_messages is not False. -/
def is_publicly_visible (logAllMessageEvents : Bool)
    (overwrites : List (OverwriteTarget × PermOverwrite)) : Bool :=
  if logAllMessageEvents then
    true
  else
    match findEveryoneOverwrite overwrites with
    | none => true
    | some t => !(t.2.read_messages == some false)

/-! ## Audit correlator (Modlog.get_responsible / autoformat_responsible) -/

/-- An audit-log entry as inspected by the code: target identity,
creation time in seconds, acting user and optional reason. -/
structure AuditLogEntry where
  targetId : Nat
  createdAt : Int
  userId : Nat
  reason : Option String
  deriving DecidableEq

/-- The outcome of the external audit-log query
guild.audit_logs(limit=1, action=...).flatten(): either the (at most
one-element, newest-first) entry list, or a discord.Forbidden error,
modelled as the Except error case. -/
abbrev AuditQueryResult := Except Unit (List AuditLogEntry)

/-- Embeds Modlog.get_responsible. On a Forbidden error from the query
the except clause swallows it and the method returns None. Otherwise
discord.utils.find returns the first entry whose target equals the
target and whose age (utcnow - created_at, in seconds) is at most 2. -/
def get_responsible (queryResult : AuditQueryResult) (targetId : Nat) (nowS : Int) :
    Option AuditLogEntry :=
  match queryResult with
  | .error _ => none
  | .ok entries =>
      entries.find? (fun entry =>
        entry.targetId == targetId && decide (nowS - entry.createdAt ≤ 2))

/-- Embeds the control flow of Modlog.autoformat_responsible, returning
the audit-log entry an edit of the log message was based on, or none
when no edit happens. The textual content of the edit (departure
formatting or the format_to callback) is abstracted away: only whether
the already-sent log message is amended matters here. hasFormatTo
records whether a format_to callback was supplied. -/
def autoformat_responsible (queryResult : AuditQueryResult)
    (logMessage : Option Nat) (targetedId : Nat) (nowS : Int)
    (departure hasFormatTo : Bool) : Option AuditLogEntry :=
  match logMessage with
  | none => none
  | some _ =>
      match get_responsible queryResult targetedId nowS with
      | none => none
      | some entry => if departure || hasFormatTo then some entry else none

/-! ## The Modlog cog state and member event handlers -/

/-- The mutable suppression state of the Modlog cog (its __init__):
ban_debounces and the two message-id lists are plain Python lists,
autorole_debounces is a dict from member id to the list of auto-assigned
role ids, modelled as an association list. -/
structure ModlogState where
  ban_debounces : List Nat
  bulk_deletes : List Nat
  censored_messages : List Nat
  autorole_debounces : List (Nat × List Nat)
  deriving DecidableEq

/-- Lookup in the autorole_debounces dict. -/
def dictLookup (d : List (Nat × List Nat)) (k : Nat) : Option (List Nat) :=
  (d.find? (fun p => p.1 == k)).map (fun p => p.2)

/-- Python dict assignment d[k] = v, modelled as replacing any binding
of k. -/
def dictInsert (d : List (Nat × List Nat)) (k : Nat) (v : List Nat) :
    List (Nat × List Nat) :=
  d.filter (fun p => p.1 != k) ++ [(k, v)]

/-- Python del d[k]. -/
def dictErase (d : List (Nat × List Nat)) (k : Nat) : List (Nat × List Nat) :=
  d.filter (fun p => p.1 != k)

/-- A guild member as inspected by on_member_update: identity, username,
optional nickname and the ordered list of role ids. -/
structure Member where
  id : Nat
  name : String
  nick : Option String
  roles : List Nat
  deriving DecidableEq

/-- The structured content of a modlog emission produced by the member
event handlers; the string templates of the code are abstracted to the
data that instantiates them. -/
inductive LogOutput where
  | nickUpdate (memberId : Nat) (before after : Option String)
  | nameUpdate (memberId : Nat) (before after : String)
  | roleUpdate (memberId : Nat) (added removed : List Nat)
  | departure (memberId : Nat)
  | banDeparture (memberId : Nat)
  | autoroleApplied (memberId : Nat) (roles : Option (List Nat))
  deriving DecidableEq

/-- Embeds Modlog.on_member_ban: appends the banned user id to
ban_debounces, then logs the ban departure message (the later
autoformat_responsible amendment is modelled separately). -/
def on_member_ban (st : ModlogState) (userId : Nat) : ModlogState × LogOutput :=
  ({ st with ban_debounces := st.ban_debounces ++ [userId] }, .banDeparture userId)

/-- Embeds Modlog.on_member_remove: if the member id is in
ban_debounces, list.remove its first occurrence and return without
logging; otherwise log the departure (and then attempt kick
attribution, modelled separately). -/
def on_member_remove (st : ModlogState) (memberId : Nat) :
    ModlogState × Option LogOutput :=
  if memberId ∈ st.ban_debounces then
    ({ st with ban_debounces := st.ban_debounces.erase memberId }, none)
  else
    (st, some (.departure memberId))

/-- Embeds Modlog.on_member_autorole: when roles_added is a non-empty
list, record the auto-assigned role ids in autorole_debounces before
logging; a failure (roles_added not a list, modelled as none) or an
empty list leaves the debounce dict untouched. -/
def on_member_autorole (st : ModlogState) (memberId : Nat)
    (rolesAdded : Option (List Nat)) : ModlogState × LogOutput :=
  match rolesAdded with
  | some roles =>
      if roles ≠ [] then
        ({ st with autorole_debounces := dictInsert st.autorole_debounces memberId roles },
         .autoroleApplied memberId (some roles))
      else
        (st, .autoroleApplied memberId (some roles))
  | none => (st, .autoroleApplied memberId none)

/-- Embeds Modlog.on_member_update: nick change, else name change, else
role change. On a role change (after the 0.5 s debounce sleep) the added
and removed roles are diffed; if the member is in autorole_debounces,
every added role id is in the recorded list, and nothing was removed,
the entry is deleted and nothing is logged; otherwise a diff-based role
update is logged (its autoformat_responsible amendment is modelled
separately). -/
def on_member_update (st : ModlogState) (before after : Member) :
    ModlogState × Option LogOutput :=
  if before.nick ≠ after.nick then
    (st, some (.nickUpdate before.id before.nick after.nick))
  else if before.name ≠ after.name then
    (st, some (.nameUpdate before.id before.name after.name))
  else if before.roles ≠ after.roles then
    let added_roles := (diff before.roles after.roles).1
    let removed_roles := (diff before.roles after.roles).2
    match dictLookup st.autorole_debounces before.id with
    | some recorded =>
        if added_roles.all (fun r => recorded.contains r) && removed_roles.isEmpty then
          ({ st with autorole_debounces := dictErase st.autorole_debounces before.id }, none)
        else
          (st, some (.roleUpdate before.id added_roles removed_roles))
    | none => (st, some (.roleUpdate before.id added_roles removed_roles))
  else
    (st, none)

/-! ## Member join (Modlog.on_member_join) -/

/-- The SQUARED NEW character U+1F195 used as the new-account marker. -/
def squaredNew : Char := Char.ofNat 0x1F195

/-- The INBOX TRAY character U+1F4E5 prefixed to join messages. -/
def inboxTray : Char := Char.ofNat 0x1F4E5

/-- A joining member as inspected by on_member_join: identity, account
creation time in seconds, and the rendered describe(member,
created=True) text, which is an input of the model (it is produced by
the external timeago renderer and the member's display name). -/
structure JoinMember where
  id : Nat
  createdAt : Int
  descriptionCreated : List Char
  deriving DecidableEq

/-- Embeds Modlog.on_member_join: the emitted line is the inbox-tray
prefix, then the SQUARED NEW marker followed by a space when
(utcnow - created_at).total_seconds() <= 604800, then the member
description; the handler never calls autoformat_responsible, so the
amendment component is none. -/
def on_member_join (m : JoinMember) (nowS : Int) :
    List Char × Option AuditLogEntry :=
  ([inboxTray, ' '] ++
     (if nowS - m.createdAt ≤ 604800 then [squaredNew, ' '] else []) ++
     m.descriptionCreated,
   none)

/-! ## Theorems about the diff engine -/

/-- C5: diff(before, after) returns (added, removed) where added is
exactly the elements of after not present in before, in after's order
(a sublist of after with the exact multiplicities), and removed is
exactly the elements of before not present in after, in before's order;
the function is pure and total, as it is a Lean function. -/
theorem diff_spec {α : Type} [DecidableEq α] (before after : List α) :
    (∀ x, x ∈ (diff before after).1 ↔ x ∈ after ∧ x ∉ before) ∧
    (diff before after).1.Sublist after ∧
    (∀ x, (diff before after).1.count x = if x ∈ before then 0 else after.count x) ∧
    (∀ x, x ∈ (diff before after).2 ↔ x ∈ before ∧ x ∉ after) ∧
    (diff before after).2.Sublist before ∧
    (∀ x, (diff before after).2.count x = if x ∈ after then 0 else before.count x) := by
  refine ⟨?_, ?_, ?_, ?_, ?_, ?_⟩
  · intro x
    simp [diff, List.mem_filter]
  · exact List.filter_sublist after
  · intro x
    by_cases hx : x ∈ before
    · rw [if_pos hx, List.count_eq_zero]
      simp [diff, List.mem_filter, hx]
    · rw [if_neg hx]
      exact List.count_filter (by simpa using hx)
  · intro x
    simp [diff, List.mem_filter]
  · exact List.filter_sublist before
  · intro x
    by_cases hx : x ∈ after
    · rw [if_pos hx, List.count_eq_zero]
      simp [diff, List.mem_filter, hx]
    · rw [if_neg hx]
      exact List.count_filter (by simpa using hx)

/-- Witness for diff_spec at concrete lists. -/
theorem diff_spec_witness :
    (3 : Nat) ∈ (diff [1, 2] [2, 3]).1 ↔ 3 ∈ [2, 3] ∧ 3 ∉ [1, 2] :=
  (diff_spec [1, 2] [2, 3]).1 3

/-- C6: for all snapshots A and B, if diff(A, B) = (added, removed)
then diff(B, A) = (removed, added). -/
theorem diff_swap {α : Type} [DecidableEq α] (A B added removed : List α)
    (h : diff A B = (added, removed)) : diff B A = (removed, added) := by
  have h1 : added = (diff A B).1 := by rw [h]
  have h2 : removed = (diff A B).2 := by rw [h]
  subst h1
  subst h2
  rfl

/-- Witness for diff_swap at concrete lists. -/
theorem diff_swap_witness :
    diff [1, 2] [2, 3] = (([3] : List Nat), [1]) ∧ diff [2, 3] [1, 2] = ([1], [3]) :=
  ⟨by decide, diff_swap [1, 2] [2, 3] [3] [1] (by decide)⟩

/-! ## Theorems about the audit correlator -/

/-- Helper: List.find? on a singleton list. -/
theorem find?_singleton {α : Type} (p : α → Bool) (a : α) :
    List.find? p [a] = cond (p a) (some a) none := by
  cases h : p a <;> simp [List.find?, h]

/-- C3: when the audit query yields a single newest entry, that entry is
rejected (absent result) whenever it targets a different entity or is
more than 2 seconds older than the query time, and it is returned
exactly when the target matches and its age is at most 2 seconds. -/
theorem get_responsible_window (e : AuditLogEntry) (targetId : Nat) (nowS : Int) :
    ((e.targetId ≠ targetId ∨ 2 < nowS - e.createdAt) →
      get_responsible (.ok [e]) targetId nowS = none) ∧
    ((e.targetId = targetId ∧ nowS - e.createdAt ≤ 2) →
      get_responsible (.ok [e]) targetId nowS = some e) := by
  have hcond : (e.targetId == targetId && decide (nowS - e.createdAt ≤ 2)) = true ↔
      (e.targetId = targetId ∧ nowS - e.createdAt ≤ 2) := by
    simp
  have hred : get_responsible (.ok [e]) targetId nowS =
      cond (e.targetId == targetId && decide (nowS - e.createdAt ≤ 2)) (some e) none :=
    find?_singleton
      (fun entry : AuditLogEntry =>
        entry.targetId == targetId && decide (nowS - entry.createdAt ≤ 2)) e
  constructor
  · intro h
    have hnot : ¬ (e.targetId = targetId ∧ nowS - e.createdAt ≤ 2) := by
      rcases h with h | h
      · exact fun hc => h hc.1
      · exact fun hc => absurd hc.2 (by omega)
    have hfalse : (e.targetId == targetId && decide (nowS - e.createdAt ≤ 2)) = false := by
      rw [← Bool.not_eq_true, hcond]
      exact hnot
    rw [hred, hfalse]
    rfl
  · intro h
    have htrue := hcond.mpr h
    rw [hred, htrue]
    rfl

/-- Witness for get_responsible_window: an entry 3 seconds old is
rejected, a 2 seconds old one with the right target is returned. -/
theorem get_responsible_window_witness :
    (((5 : Nat) ≠ 5 ∨ (2 : Int) < 3 - 0) →
      get_responsible (.ok [⟨5, 0, 9, none⟩]) 5 3 = none) ∧
    (((5 : Nat) = 5 ∧ (3 : Int) - 1 ≤ 2) →
      get_responsible (.ok [⟨5, 1, 9, none⟩]) 5 3 = some ⟨5, 1, 9, none⟩) :=
  ⟨(get_responsible_window ⟨5, 0, 9, none⟩ 5 3).1,
   (get_responsible_window ⟨5, 1, 9, none⟩ 5 3).2⟩

/-- C4: a Forbidden error from the audit query makes get_responsible
return absent instead of propagating, and autoformat_responsible then
performs no amendment of the already-sent log message. -/
theorem get_responsible_forbidden (logMessage : Option Nat) (targetId : Nat)
    (nowS : Int) (departure hasFormatTo : Bool) :
    get_responsible (.error ()) targetId nowS = none ∧
    autoformat_responsible (.error ()) logMessage targetId nowS departure hasFormatTo = none := by
  refine ⟨rfl, ?_⟩
  cases logMessage <;> simp [autoformat_responsible, get_responsible]

/-- Witness for get_responsible_forbidden at concrete arguments. -/
theorem get_responsible_forbidden_witness :
    get_responsible (.error ()) 5 3 = none ∧
    autoformat_responsible (.error ()) (some 1) 5 3 true false = none :=
  get_responsible_forbidden (some 1) 5 3 true false

/-! ## Theorems about the visibility classifier -/

/-- C7: is_publicly_visible returns true whenever the
log_all_message_events flag is set, regardless of the overwrites; when
the flag is unset it returns true exactly when the @everyone overwrite
is absent or does not explicitly deny read access. -/
theorem is_publicly_visible_spec (overwrites : List (OverwriteTarget × PermOverwrite)) :
    is_publicly_visible true overwrites = true ∧
    (is_publicly_visible false overwrites = true ↔
      ∀ ow, findEveryoneOverwrite overwrites = some ow →
        ow.2.read_messages ≠ some false) := by
  refine ⟨rfl, ?_⟩
  cases hf : findEveryoneOverwrite overwrites with
  | none => simp [is_publicly_visible, hf]
  | some ow => simp [is_publicly_visible, hf]

/-- Witness for is_publicly_visible_spec: a channel whose @everyone
overwrite denies reading is not publicly visible unless the flag is
set. -/
theorem is_publicly_visible_spec_witness :
    is_publicly_visible true [(⟨everyoneName⟩, ⟨some false⟩)] = true ∧
    (is_publicly_visible false [(⟨everyoneName⟩, ⟨some false⟩)] = true ↔
      ∀ ow, findEveryoneOverwrite [(⟨everyoneName⟩, ⟨some false⟩)] = some ow →
        ow.2.read_messages ≠ some false) :=
  is_publicly_visible_spec [(⟨everyoneName⟩, ⟨some false⟩)]

/-! ## Theorems about the debounce state machine -/

/-- Helper: a filter that removed every binding of k leaves nothing for
find? to find about k. -/
theorem find?_filter_ne (d : List (Nat × List Nat)) (k : Nat) :
    (d.filter (fun p => p.1 != k)).find? (fun p => p.1 == k) = none := by
  rw [List.find?_eq_none]
  intro x hx
  have hx2 := (List.mem_filter.mp hx).2
  simp only [bne_iff_ne, ne_eq] at hx2
  simp [hx2]

/-- Helper: looking up a key right after deleting it finds nothing. -/
theorem dictLookup_dictErase (d : List (Nat × List Nat)) (k : Nat) :
    dictLookup (dictErase d k) k = none := by
  rw [dictLookup, dictErase, find?_filter_ne]
  rfl

/-- C1: a ban debounce is one-shot. Starting from a state in which user
u is not ban-debounced, a member-ban event registers the debounce; the
next member-remove event for u is suppressed (no departure log) and
consumes the entry, so a second member-remove event for u is not
suppressed and emits the departure log. -/
theorem ban_debounce_one_shot (st : ModlogState) (u : Nat)
    (hu : u ∉ st.ban_debounces) :
    (on_member_remove (on_member_ban st u).1 u).2 = none ∧
    u ∉ (on_member_remove (on_member_ban st u).1 u).1.ban_debounces ∧
    (on_member_remove (on_member_remove (on_member_ban st u).1 u).1 u).2 =
      some (.departure u) := by
  have hmem : u ∈ (on_member_ban st u).1.ban_debounces := by
    simp [on_member_ban]
  have herase : ((on_member_ban st u).1.ban_debounces).erase u = st.ban_debounces := by
    show (st.ban_debounces ++ [u]).erase u = st.ban_debounces
    rw [List.erase_append_right _ hu]
    simp
  have hstep : on_member_remove (on_member_ban st u).1 u =
      ({ (on_member_ban st u).1 with ban_debounces := st.ban_debounces }, none) := by
    rw [on_member_remove, if_pos hmem, herase]
  refine ⟨?_, ?_, ?_⟩
  · rw [hstep]
  · rw [hstep]
    exact hu
  · rw [hstep]
    show (on_member_remove { (on_member_ban st u).1 with
      ban_debounces := st.ban_debounces } u).2 = some (.departure u)
    rw [on_member_remove, if_neg hu]

/-- Witness for ban_debounce_one_shot from the empty state. -/
theorem ban_debounce_one_shot_witness :
    (42 : Nat) ∉ (ModlogState.mk [] [] [] []).ban_debounces ∧
    (on_member_remove (on_member_ban ⟨[], [], [], []⟩ 42).1 42).2 = none :=
  ⟨by decide, (ban_debounce_one_shot ⟨[], [], [], []⟩ 42 (by decide)).1⟩

/-- C2: with an autorole debounce recorded for the member, a pure role
change (nick and name unchanged) whose additions are all contained in
the recorded set and which removes nothing is suppressed without any
emission and deletes the debounce entry; if any role was removed, the
event is not suppressed and the diff-based role-update line is emitted
with the state unchanged. -/
theorem autorole_debounce_suppression (st : ModlogState) (before after : Member)
    (recorded : List Nat)
    (hnick : before.nick = after.nick) (hname : before.name = after.name)
    (hroles : before.roles ≠ after.roles)
    (hdeb : dictLookup st.autorole_debounces before.id = some recorded) :
    (((∀ r ∈ (diff before.roles after.roles).1, r ∈ recorded) ∧
        (diff before.roles after.roles).2 = []) →
      (on_member_update st before after).2 = none ∧
      dictLookup (on_member_update st before after).1.autorole_debounces before.id
        = none) ∧
    ((diff before.roles after.roles).2 ≠ [] →
      on_member_update st before after =
        (st, some (.roleUpdate before.id (diff before.roles after.roles).1
          (diff before.roles after.roles).2))) := by
  constructor
  · rintro ⟨hsub, hrem⟩
    have hupd : on_member_update st before after =
        ({ st with autorole_debounces := dictErase st.autorole_debounces before.id },
         none) := by
      simp [on_member_update, hnick, hname, hroles, hdeb, hrem]
      exact hsub
    rw [hupd]
    exact ⟨rfl, dictLookup_dictErase st.autorole_debounces before.id⟩
  · intro hrem
    simp [on_member_update, hnick, hname, hroles, hdeb, hrem]

/-- Witness for autorole_debounce_suppression: roles 1 and 2 recorded
as auto-assigned for member 7 suppress the pure-addition update. -/
theorem autorole_debounce_suppression_witness :
    ((([] : List Nat) ≠ []) ∨ True) ∧
    (on_member_update ⟨[], [], [], [(7, [1, 2])]⟩ ⟨7, "a", none, [0]⟩
      ⟨7, "a", none, [0, 1, 2]⟩).2 = none :=
  ⟨Or.inr trivial,
   ((autorole_debounce_suppression ⟨[], [], [], [(7, [1, 2])]⟩ ⟨7, "a", none, [0]⟩
      ⟨7, "a", none, [0, 1, 2]⟩ [1, 2] rfl rfl (by decide) (by decide)).1
    (by decide)).1⟩

/-! ## Theorems about the member-join marker -/

/-- C8 counterexample: at an account age of exactly 604800 seconds the
handler still attaches the SQUARED NEW marker, so the marker is not
equivalent to the age being strictly under 604800 seconds. -/
theorem member_join_marker_counterexample :
    ¬ (squaredNew ∈ (on_member_join ⟨1, 0, []⟩ 604800).1 ↔
        (604800 : Int) - 0 < 604800) := by
  decide

/-- C8 (amended): the emitted join line contains the SQUARED NEW marker
iff the account age at emission time is at most 604800 seconds (the
code compares with <=, so the marker also appears at exactly 7 days);
the join handler performs no attribution amendment. The hypothesis
keeps the externally rendered member description free of the marker
character. -/
theorem member_join_new_marker (m : JoinMember) (nowS : Int)
    (hdesc : squaredNew ∉ m.descriptionCreated) :
    (squaredNew ∈ (on_member_join m nowS).1 ↔ nowS - m.createdAt ≤ 604800) ∧
    (on_member_join m nowS).2 = none := by
  refine ⟨?_, rfl⟩
  by_cases hage : nowS - m.createdAt ≤ 604800
  · simp [on_member_join, hage]
  · simp [on_member_join, hage, hdesc]
    decide

/-- Witness for member_join_new_marker: an account two days old gets
the marker. -/
theorem member_join_new_marker_witness :
    squaredNew ∉ ([] : List Char) ∧
    (squaredNew ∈ (on_member_join ⟨1, 0, []⟩ 172800).1 ↔
      (172800 : Int) - 0 ≤ 604800) :=
  ⟨by decide, (member_join_new_marker ⟨1, 0, []⟩ 172800 (by decide)).1⟩

/-! ## Theorems about truncate -/

/-- C9: for a desired length n of at least 3, truncate never exceeds n
characters; it returns the text unchanged when it already fits, and
otherwise the first n - 3 characters followed by three dots, which is
exactly n characters. -/
theorem truncate_spec (s : List Char) (n : Nat) (h3 : 3 ≤ n) :
    (truncate s (n : Int)).length ≤ n ∧
    (s.length ≤ n → truncate s (n : Int) = s) ∧
    (n < s.length →
      truncate s (n : Int) = s.take (n - 3) ++ ['.', '.', '.'] ∧
      (truncate s (n : Int)).length = n) := by
  by_cases hlen : s.length ≤ n
  · have hc : ¬ ((n : Int) < (s.length : Int)) := by exact_mod_cast not_lt.mpr hlen
    have ht : truncate s (n : Int) = s := by
      rw [truncate, if_neg hc]
    refine ⟨?_, fun _ => ht, fun hlt => absurd hlt (by omega)⟩
    rw [ht]
    exact hlen
  · push_neg at hlen
    have hc : ((s.length : Int)) > (n : Int) := by exact_mod_cast hlen
    have hnn : (0 : Int) ≤ (n : Int) - 3 := by omega
    have htn : ((n : Int) - 3).toNat = n - 3 := by omega
    have ht : truncate s (n : Int) = s.take (n - 3) ++ ['.', '.', '.'] := by
      rw [truncate, if_pos hc, pySliceTo, if_pos hnn, htn]
    have hlen3 : (s.take (n - 3)).length = n - 3 := by
      rw [List.length_take]
      omega
    have hfull : (truncate s (n : Int)).length = n := by
      rw [ht, List.length_append, hlen3]
      simp
      omega
    exact ⟨le_of_eq hfull, fun hle => absurd hle (by omega), fun _ => ⟨ht, hfull⟩⟩

/-- Witness for truncate_spec: a six-character text truncated to 5. -/
theorem truncate_spec_witness :
    3 ≤ 5 ∧ (truncate ['a', 'b', 'c', 'd', 'e', 'f'] ((5 : Nat) : Int)).length ≤ 5 :=
  ⟨by decide, (truncate_spec ['a', 'b', 'c', 'd', 'e', 'f'] 5 (by decide)).1⟩

/-! ## Theorems about prevent_codeblock_breakout -/

/-- Helper: the first character a single-character expansion produces is
never a backtick. -/
theorem breakoutStep_head (c : Char) :
    ∀ x ∈ (breakoutStep c).head?, x ≠ backtickChar := by
  intro x hx
  by_cases hc : c = backtickChar
  · rw [breakoutStep, if_pos hc] at hx
    have hxz : zwsp = x := by simpa using hx
    subst hxz
    decide
  · rw [breakoutStep, if_neg hc] at hx
    have hxc : c = x := by simpa using hx
    subst hxc
    exact hc

/-- Helper: the last character a single-character expansion produces is
never a backtick. -/
theorem breakoutStep_getLast (c : Char) :
    ∀ x ∈ (breakoutStep c).getLast?, x ≠ backtickChar := by
  intro x hx
  by_cases hc : c = backtickChar
  · rw [breakoutStep, if_pos hc] at hx
    have hxz : zwsp = x := by simpa using hx
    subst hxz
    decide
  · rw [breakoutStep, if_neg hc] at hx
    have hxc : c = x := by simpa using hx
    subst hxc
    exact hc

/-- Helper: the escaped text never starts with a backtick. -/
theorem pcb_head (t : List Char) :
    ∀ x ∈ (prevent_codeblock_breakout t).head?, x ≠ backtickChar := by
  cases t with
  | nil => simp [prevent_codeblock_breakout]
  | cons c cs =>
      intro x hx
      rw [prevent_codeblock_breakout, List.flatMap_cons] at hx
      by_cases hc : c = backtickChar
      · rw [breakoutStep, if_pos hc] at hx
        have hxz : zwsp = x := by simpa using hx
        subst hxz
        decide
      · rw [breakoutStep, if_neg hc] at hx
        have hxc : c = x := by simpa using hx
        subst hxc
        exact hc

/-- Helper: the escaped text never ends with a backtick. -/
theorem pcb_getLast (t : List Char) :
    ∀ x ∈ (prevent_codeblock_breakout t).getLast?, x ≠ backtickChar := by
  induction t with
  | nil => simp [prevent_codeblock_breakout]
  | cons c cs ih =>
      rw [prevent_codeblock_breakout, List.flatMap_cons]
      intro x hx
      rw [List.getLast?_append] at hx
      cases hcs : (cs.flatMap breakoutStep).getLast? with
      | some y =>
          rw [hcs, Option.or_some] at hx
          have hxy : y = x := by simpa using hx
          subst hxy
          exact ih y hcs
      | none =>
          rw [hcs, Option.none_or] at hx
          exact breakoutStep_getLast c x hx

/-- Helper: in the escaped text every backtick is followed by a
zero-width space (whenever a next character exists). -/
theorem pcb_chain_right (t : List Char) :
    (prevent_codeblock_breakout t).Chain'
      (fun a b => a = backtickChar → b = zwsp) := by
  induction t with
  | nil => simp [prevent_codeblock_breakout]
  | cons c cs ih =>
      rw [prevent_codeblock_breakout, List.flatMap_cons]
      refine List.chain'_append.mpr ⟨?_, ih, ?_⟩
      · by_cases hc : c = backtickChar
        · simp [breakoutStep, hc, List.chain'_cons, List.chain'_singleton]
          decide
        · simp [breakoutStep, hc, List.chain'_singleton]
      · intro x hx y hy hxbt
        exact absurd hxbt (breakoutStep_getLast c x hx)

/-- Helper: in the escaped text every backtick is preceded by a
zero-width space (whenever a previous character exists). -/
theorem pcb_chain_left (t : List Char) :
    (prevent_codeblock_breakout t).Chain'
      (fun a b => b = backtickChar → a = zwsp) := by
  induction t with
  | nil => simp [prevent_codeblock_breakout]
  | cons c cs ih =>
      rw [prevent_codeblock_breakout, List.flatMap_cons]
      refine List.chain'_append.mpr ⟨?_, ih, ?_⟩
      · by_cases hc : c = backtickChar
        · simp [breakoutStep, hc, List.chain'_cons, List.chain'_singleton]
          decide
        · simp [breakoutStep, hc, List.chain'_singleton]
      · intro x hx y hy hybt
        exact absurd hybt (pcb_head cs y hy)

/-- Helper: a chained list has no decomposition around an adjacent pair
violating the chain relation. -/
theorem chain'_adjacent {α : Type} {R : α → α → Prop} :
    ∀ (l₁ : List α) (a b : α) (l₂ : List α),
      (l₁ ++ a :: b :: l₂).Chain' R → R a b := by
  intro l₁
  induction l₁ with
  | nil => exact fun a b l₂ h => (List.chain'_cons.mp h).1
  | cons c l₁ ih => exact fun a b l₂ h => ih a b l₂ h.tail

/-- C10: in the output of prevent_codeblock_breakout every backtick is
surrounded by zero-width spaces (it is never first or last, any next
character is a ZWSP and any previous character is a ZWSP), hence no two
adjacent backticks occur anywhere in the output and in particular no
triple-backtick substring exists, so logged content cannot terminate
the code block it is embedded in. -/
theorem prevent_codeblock_breakout_spec (t : List Char) :
    (prevent_codeblock_breakout t).Chain'
        (fun a b => a = backtickChar → b = zwsp) ∧
    (prevent_codeblock_breakout t).Chain'
        (fun a b => b = backtickChar → a = zwsp) ∧
    (∀ x ∈ (prevent_codeblock_breakout t).head?, x ≠ backtickChar) ∧
    (∀ x ∈ (prevent_codeblock_breakout t).getLast?, x ≠ backtickChar) ∧
    (∀ l₁ l₂, prevent_codeblock_breakout t ≠
      l₁ ++ backtickChar :: backtickChar :: l₂) ∧
    (∀ l₁ l₂, prevent_codeblock_breakout t ≠
      l₁ ++ backtickChar :: backtickChar :: backtickChar :: l₂) := by
  refine ⟨pcb_chain_right t, pcb_chain_left t, pcb_head t, pcb_getLast t, ?_, ?_⟩
  · intro l₁ l₂ heq
    have hr := chain'_adjacent l₁ backtickChar backtickChar l₂
      (heq ▸ pcb_chain_right t)
    exact absurd (hr rfl) (by decide)
  · intro l₁ l₂ heq
    have hr := chain'_adjacent l₁ backtickChar backtickChar (backtickChar :: l₂)
      (heq ▸ pcb_chain_right t)
    exact absurd (hr rfl) (by decide)

/-- Witness for prevent_codeblock_breakout_spec on a concrete input. -/
theorem prevent_codeblock_breakout_spec_witness :
    (prevent_codeblock_breakout [backtickChar, 'x']).Chain'
      (fun a b => a = backtickChar → b = zwsp) :=
  (prevent_codeblock_breakout_spec [backtickChar, 'x']).1

end Dogbot
